import Mathlib

/-!
Shallow embedding of `enhancement.go` from the `ghec` package: a pricing
function for ability-card enhancements. Go machine integers are modelled as
`Int`; Go's `/` and `%` on signed integers truncate toward zero, so they are
embedded as `Int.tdiv` and `Int.tmod`. A Go function returning `(Cost, error)`
is embedded as `Cost × Option String`, where `none` is the nil error.
-/

namespace Ghec

/-!
The Go named integer types `Cost`, `BaseEnhancement`, `Level` and
`PreviousEnhancements` are all `type X int` wrappers with no behaviour of
their own; they are embedded directly as `Int` so that arithmetic automation
sees plain integers.
-/

/-! The `Enhance*` constants, `iota` numbering 0..25, in source order. -/

def EnhanceMove : Int := 0

def EnhanceJump : Int := 1

def EnhanceAttack : Int := 2

def EnhanceRange : Int := 3

def EnhanceTarget : Int := 4

def EnhanceAddAttackHex : Int := 5

def EnhanceHeal : Int := 6

def EnhanceShield : Int := 7

def EnhanceRetaliate : Int := 8

def EnhanceStrengthen : Int := 9

def EnhanceMuddle : Int := 10

def EnhanceDisarm : Int := 11

def EnhancePierce : Int := 12

def EnhancePoison : Int := 13

def EnhanceWound : Int := 14

def EnhancePush : Int := 15

def EnhancePull : Int := 16

def EnhanceImmobilize : Int := 17

def EnhanceCurse : Int := 18

def EnhanceBless : Int := 19

def EnhanceSpecificElement : Int := 20

def EnhanceAnyElement : Int := 21

def EnhanceSummonsMove : Int := 22

def EnhanceSummonsAttack : Int := 23

def EnhanceSummonsRange : Int := 24

def EnhanceSummonsHP : Int := 25

/-- The `Enhance*` constants defined by the source, in declaration order. -/
def definedBaseEnhancements : List Int :=
  [EnhanceMove, EnhanceJump, EnhanceAttack, EnhanceRange, EnhanceTarget,
   EnhanceAddAttackHex, EnhanceHeal, EnhanceShield, EnhanceRetaliate,
   EnhanceStrengthen, EnhanceMuddle, EnhanceDisarm, EnhancePierce,
   EnhancePoison, EnhanceWound, EnhancePush, EnhancePull, EnhanceImmobilize,
   EnhanceCurse, EnhanceBless, EnhanceSpecificElement, EnhanceAnyElement,
   EnhanceSummonsMove, EnhanceSummonsAttack, EnhanceSummonsRange,
   EnhanceSummonsHP]

/-- Embeds `type enhancement struct` with its four fields. -/
structure Enhancement where
  baseEnhancement : Int
  level : Int
  multipleTarget : Int
  previousEnhancements : Int
deriving DecidableEq, Repr

/-- Embeds `func NewEnhancement`: defaults are level 1, multipleTarget 1,
previousEnhancements 0. -/
def NewEnhancement (baseEnhancement : Int) : Enhancement :=
  { baseEnhancement := baseEnhancement
    level := 1
    multipleTarget := 1
    previousEnhancements := 0 }

/-- Embeds `func (e enhancement) WithMultipleTarget`. -/
def Enhancement.WithMultipleTarget (e : Enhancement) (multipleTarget : Int) :
    Enhancement :=
  { e with multipleTarget := multipleTarget }

/-- Embeds `func (e enhancement) WithLevel`. -/
def Enhancement.WithLevel (e : Enhancement) (level : Int) : Enhancement :=
  { e with level := level }

/-- Embeds `func (e enhancement) WithPreviousEnhancements`. -/
def Enhancement.WithPreviousEnhancements (e : Enhancement)
    (previousEnhancements : Int) : Enhancement :=
  { e with previousEnhancements := previousEnhancements }

/-- Embeds `func DecrementPrevious`: `return (p - 1 + 4) % 4`
(Go `%` truncates, hence `Int.tmod`). -/
def DecrementPrevious (p : Int) : Int :=
  Int.tmod (p - 1 + 4) 4

/-- Embeds `func IncrementPrevious`: `return (p + 1) % 4`. -/
def IncrementPrevious (p : Int) : Int :=
  Int.tmod (p + 1) 4

/-- The fall-through arms of the `switch` in `costForBaseEnhancement`: the
arms that assign `cost = ...` and then reach the shared doubling epilogue.
`none` is the `default:` arm. The comparison order follows the source. -/
def baseLookup (be : Int) : Option Int :=
  if be = EnhanceMove then some 30
  else if be = EnhanceAttack then some 50
  else if be = EnhanceRange then some 30
  else if be = EnhanceShield then some 100
  else if be = EnhancePush then some 30
  else if be = EnhancePull then some 30
  else if be = EnhancePierce then some 30
  else if be = EnhanceRetaliate then some 100
  else if be = EnhanceHeal then some 30
  else if be = EnhanceTarget then some 50
  else if be = EnhancePoison then some 75
  else if be = EnhanceWound then some 75
  else if be = EnhanceMuddle then some 50
  else if be = EnhanceImmobilize then some 100
  else if be = EnhanceDisarm then some 150
  else if be = EnhanceCurse then some 75
  else if be = EnhanceStrengthen then some 50
  else if be = EnhanceBless then some 50
  else if be = EnhanceJump then some 50
  else if be = EnhanceSpecificElement then some 100
  else if be = EnhanceAnyElement then some 150
  else none

/-- Embeds `func (e enhancement) costForBaseEnhancement`.
The `EnhanceAddAttackHex` and the four `EnhanceSummons*` arms return early
(no doubling); the remaining arms fall through `baseLookup` into the
`if e.multipleTarget > 1 { cost *= 2 }` epilogue. -/
def Enhancement.costForBaseEnhancement (e : Enhancement) : Int × Option String :=
  if e.baseEnhancement = EnhanceAddAttackHex then
    if e.multipleTarget = 0 then (0, some "e.multipleTarget is 0")
    else (Int.tdiv 200 e.multipleTarget, none)
  else if e.baseEnhancement = EnhanceSummonsMove then (100, none)
  else if e.baseEnhancement = EnhanceSummonsAttack then (100, none)
  else if e.baseEnhancement = EnhanceSummonsRange then (50, none)
  else if e.baseEnhancement = EnhanceSummonsHP then (50, none)
  else
    match baseLookup e.baseEnhancement with
    | some cost => (if e.multipleTarget > 1 then cost * 2 else cost, none)
    | none =>
        (0, some ("unknown base enhancement " ++ toString e.baseEnhancement))

/-- Embeds `func costForLevel`. -/
def costForLevel (level : Int) : Int × Option String :=
  if level = 1 then (0, none)
  else if level = 2 then (25, none)
  else if level = 3 then (50, none)
  else if level = 4 then (75, none)
  else if level = 5 then (100, none)
  else if level = 6 then (125, none)
  else if level = 7 then (150, none)
  else if level = 8 then (175, none)
  else if level = 9 then (200, none)
  else (0, some ("level must be between 1 and 9, not " ++ toString level))

/-- Embeds `func costForPreviousEnhancements`. -/
def costForPreviousEnhancements (previousEnhancements : Int) :
    Int × Option String :=
  if previousEnhancements = 0 then (0, none)
  else if previousEnhancements = 1 then (75, none)
  else if previousEnhancements = 2 then (150, none)
  else if previousEnhancements = 3 then (225, none)
  else (0, some ("previous enhancements must be between 0 and 3, not " ++
          toString previousEnhancements))

/-- Embeds `func (e enhancement) Cost`: validates level and
previous-enhancement bounds, then sums the three sub-costs, propagating the
first non-nil error with a zero cost. -/
def Enhancement.Cost (e : Enhancement) : Int × Option String :=
  if e.level < 1 ∨ e.level > 9 then
    (0, some ("level must be between 1 and 9, not " ++ toString e.level))
  else if e.previousEnhancements < 0 ∨ e.previousEnhancements > 3 then
    (0, some ("previous enhancements must be between 0 and 3, not " ++
        toString e.previousEnhancements))
  else
    match e.costForBaseEnhancement with
    | (_, some err) => (0, some err)
    | (baseCost, none) =>
      match costForLevel e.level with
      | (_, some err) => (0, some err)
      | (levelCost, none) =>
        match costForPreviousEnhancements e.previousEnhancements with
        | (_, some err) => (0, some err)
        | (previousEnhancementCost, none) =>
            (baseCost + levelCost + previousEnhancementCost, none)

/-! ### Helper lemmas about the three sub-cost functions -/

theorem costForLevel_valid (l : Int) (h1 : 1 ≤ l) (h2 : l ≤ 9) :
    costForLevel l = (25 * (l - 1), none) := by
  interval_cases l <;> rfl

theorem costForLevel_invalid (l : Int) (h : l < 1 ∨ 9 < l) :
    costForLevel l =
      (0, some ("level must be between 1 and 9, not " ++ toString l)) := by
  have h1 : ¬ l = 1 := by omega
  have h2 : ¬ l = 2 := by omega
  have h3 : ¬ l = 3 := by omega
  have h4 : ¬ l = 4 := by omega
  have h5 : ¬ l = 5 := by omega
  have h6 : ¬ l = 6 := by omega
  have h7 : ¬ l = 7 := by omega
  have h8 : ¬ l = 8 := by omega
  have h9 : ¬ l = 9 := by omega
  simp [costForLevel, h1, h2, h3, h4, h5, h6, h7, h8, h9]

theorem costForPreviousEnhancements_valid (p : Int)
    (h1 : 0 ≤ p) (h2 : p ≤ 3) :
    costForPreviousEnhancements p = (75 * p, none) := by
  interval_cases p <;> rfl

theorem costForPreviousEnhancements_invalid (p : Int)
    (h : p < 0 ∨ 3 < p) :
    costForPreviousEnhancements p =
      (0, some ("previous enhancements must be between 0 and 3, not " ++
        toString p)) := by
  have h0 : ¬ p = 0 := by omega
  have h1 : ¬ p = 1 := by omega
  have h2 : ¬ p = 2 := by omega
  have h3 : ¬ p = 3 := by omega
  simp [costForPreviousEnhancements, h0, h1, h2, h3]

theorem cost_eq_sum (e : Enhancement) (h1 : 1 ≤ e.level) (h2 : e.level ≤ 9)
    (h3 : 0 ≤ e.previousEnhancements) (h4 : e.previousEnhancements ≤ 3)
    (b : Int) (hb : e.costForBaseEnhancement = (b, none)) :
    e.Cost = (b + 25 * (e.level - 1) + 75 * e.previousEnhancements, none) := by
  have hA : ¬ (e.level < 1 ∨ e.level > 9) := by omega
  have hB : ¬ (e.previousEnhancements < 0 ∨ e.previousEnhancements > 3) := by
    omega
  simp [Enhancement.Cost, hA, hB, hb, costForLevel_valid _ h1 h2,
    costForPreviousEnhancements_valid _ h3 h4]

/-! ### Helper lemmas about costForBaseEnhancement -/

theorem costForBase_hex (e : Enhancement)
    (hbe : e.baseEnhancement = EnhanceAddAttackHex) :
    e.costForBaseEnhancement =
      if e.multipleTarget = 0 then (0, some "e.multipleTarget is 0")
      else (Int.tdiv 200 e.multipleTarget, none) := by
  simp [Enhancement.costForBaseEnhancement, hbe]

theorem costForBase_lookup (e : Enhancement) (c : Int)
    (hx : e.baseEnhancement ≠ EnhanceAddAttackHex)
    (hsm : e.baseEnhancement ≠ EnhanceSummonsMove)
    (hsa : e.baseEnhancement ≠ EnhanceSummonsAttack)
    (hsr : e.baseEnhancement ≠ EnhanceSummonsRange)
    (hsh : e.baseEnhancement ≠ EnhanceSummonsHP)
    (hc : baseLookup e.baseEnhancement = some c) :
    e.costForBaseEnhancement =
      (if e.multipleTarget > 1 then c * 2 else c, none) := by
  simp [Enhancement.costForBaseEnhancement, hx, hsm, hsa, hsr, hsh, hc]

theorem baseLookup_defined (be : Int) (hb : be ∈ definedBaseEnhancements)
    (hx : be ≠ EnhanceAddAttackHex)
    (hsm : be ≠ EnhanceSummonsMove) (hsa : be ≠ EnhanceSummonsAttack)
    (hsr : be ≠ EnhanceSummonsRange) (hsh : be ≠ EnhanceSummonsHP) :
    ∃ c, baseLookup be = some c ∧ 0 < c := by
  simp only [definedBaseEnhancements, List.mem_cons, List.not_mem_nil,
    or_false] at hb
  rcases hb with rfl|rfl|rfl|rfl|rfl|rfl|rfl|rfl|rfl|rfl|rfl|rfl|rfl|rfl|rfl|rfl|rfl|rfl|rfl|rfl|rfl|rfl|rfl|rfl|rfl|rfl <;>
    first
      | exact absurd rfl hx
      | exact absurd rfl hsm
      | exact absurd rfl hsa
      | exact absurd rfl hsr
      | exact absurd rfl hsh
      | exact ⟨_, rfl, by decide⟩

theorem costForBase_summons_const (e : Enhancement)
    (hb : e.baseEnhancement = EnhanceSummonsMove ∨
      e.baseEnhancement = EnhanceSummonsAttack ∨
      e.baseEnhancement = EnhanceSummonsRange ∨
      e.baseEnhancement = EnhanceSummonsHP) (m m' : Int) :
    (e.WithMultipleTarget m).costForBaseEnhancement =
      (e.WithMultipleTarget m').costForBaseEnhancement := by
  rcases hb with hb|hb|hb|hb <;>
    simp [Enhancement.costForBaseEnhancement, Enhancement.WithMultipleTarget,
      hb, EnhanceSummonsMove, EnhanceSummonsAttack, EnhanceSummonsRange,
      EnhanceSummonsHP, EnhanceAddAttackHex]

theorem costForBase_undefined (e : Enhancement)
    (hb : e.baseEnhancement ∉ definedBaseEnhancements) :
    e.costForBaseEnhancement =
      (0, some ("unknown base enhancement " ++ toString e.baseEnhancement)) := by
  simp only [definedBaseEnhancements, List.mem_cons, List.not_mem_nil,
    or_false, not_or] at hb
  obtain ⟨n0, n1, n2, n3, n4, n5, n6, n7, n8, n9, n10, n11, n12, n13, n14,
    n15, n16, n17, n18, n19, n20, n21, n22, n23, n24, n25⟩ := hb
  simp [Enhancement.costForBaseEnhancement, baseLookup,
    n0, n1, n2, n3, n4, n5, n6, n7, n8, n9, n10, n11, n12, n13, n14, n15,
    n16, n17, n18, n19, n20, n21, n22, n23, n24, n25]

theorem costForBase_snd_none (e : Enhancement)
    (hb : e.baseEnhancement ∈ definedBaseEnhancements)
    (hm : e.baseEnhancement = EnhanceAddAttackHex → e.multipleTarget ≠ 0) :
    (e.costForBaseEnhancement).2 = none := by
  obtain ⟨be, l, mt, p⟩ := e
  simp only [definedBaseEnhancements, List.mem_cons, List.not_mem_nil,
    or_false] at hb
  rcases hb with rfl|rfl|rfl|rfl|rfl|rfl|rfl|rfl|rfl|rfl|rfl|rfl|rfl|rfl|rfl|rfl|rfl|rfl|rfl|rfl|rfl|rfl|rfl|rfl|rfl|rfl <;>
    simp_all [Enhancement.costForBaseEnhancement, baseLookup,
      EnhanceMove, EnhanceJump, EnhanceAttack, EnhanceRange, EnhanceTarget,
      EnhanceAddAttackHex, EnhanceHeal, EnhanceShield, EnhanceRetaliate,
      EnhanceStrengthen, EnhanceMuddle, EnhanceDisarm, EnhancePierce,
      EnhancePoison, EnhanceWound, EnhancePush, EnhancePull,
      EnhanceImmobilize, EnhanceCurse, EnhanceBless, EnhanceSpecificElement,
      EnhanceAnyElement, EnhanceSummonsMove, EnhanceSummonsAttack,
      EnhanceSummonsRange, EnhanceSummonsHP]

theorem pair_eq_of_snd_none (x : Int × Option String) (h : x.2 = none) :
    x = (x.1, none) := by
  obtain ⟨a, b⟩ := x
  simp only at h
  rw [h]

/-! ### Composition lemmas for Cost -/

theorem costForBase_nonneg (e : Enhancement)
    (hb : e.baseEnhancement ∈ definedBaseEnhancements)
    (hm : e.baseEnhancement = EnhanceAddAttackHex → 0 < e.multipleTarget) :
    (e.costForBaseEnhancement).2 = none ∧ 0 ≤ (e.costForBaseEnhancement).1 := by
  by_cases hx : e.baseEnhancement = EnhanceAddAttackHex
  · have hmt := hm hx
    rw [costForBase_hex e hx, if_neg (by omega : ¬ e.multipleTarget = 0)]
    exact ⟨rfl, Int.tdiv_nonneg (by norm_num) (le_of_lt hmt)⟩
  by_cases hsm : e.baseEnhancement = EnhanceSummonsMove
  · have h100 : e.costForBaseEnhancement = (100, none) := by
      simp [Enhancement.costForBaseEnhancement, hsm, EnhanceSummonsMove,
        EnhanceAddAttackHex]
    rw [h100]
    exact ⟨rfl, by norm_num⟩
  by_cases hsa : e.baseEnhancement = EnhanceSummonsAttack
  · have h100 : e.costForBaseEnhancement = (100, none) := by
      simp [Enhancement.costForBaseEnhancement, hsa, EnhanceSummonsAttack,
        EnhanceSummonsMove, EnhanceAddAttackHex]
    rw [h100]
    exact ⟨rfl, by norm_num⟩
  by_cases hsr : e.baseEnhancement = EnhanceSummonsRange
  · have h50 : e.costForBaseEnhancement = (50, none) := by
      simp [Enhancement.costForBaseEnhancement, hsr, EnhanceSummonsRange,
        EnhanceSummonsAttack, EnhanceSummonsMove, EnhanceAddAttackHex]
    rw [h50]
    exact ⟨rfl, by norm_num⟩
  by_cases hsh : e.baseEnhancement = EnhanceSummonsHP
  · have h50 : e.costForBaseEnhancement = (50, none) := by
      simp [Enhancement.costForBaseEnhancement, hsh, EnhanceSummonsHP,
        EnhanceSummonsRange, EnhanceSummonsAttack, EnhanceSummonsMove,
        EnhanceAddAttackHex]
    rw [h50]
    exact ⟨rfl, by norm_num⟩
  obtain ⟨c, hc, hcpos⟩ := baseLookup_defined _ hb hx hsm hsa hsr hsh
  rw [costForBase_lookup e c hx hsm hsa hsr hsh hc]
  refine ⟨rfl, ?_⟩
  dsimp only
  split <;> omega

theorem cost_ok (e : Enhancement) (h1 : 1 ≤ e.level) (h2 : e.level ≤ 9)
    (h3 : 0 ≤ e.previousEnhancements) (h4 : e.previousEnhancements ≤ 3)
    (hb : e.baseEnhancement ∈ definedBaseEnhancements)
    (hm : e.baseEnhancement = EnhanceAddAttackHex → e.multipleTarget ≠ 0) :
    ∃ b, e.costForBaseEnhancement = (b, none) ∧
      e.Cost = (b + 25 * (e.level - 1) + 75 * e.previousEnhancements, none) := by
  have hsnd := costForBase_snd_none e hb hm
  have heq := pair_eq_of_snd_none _ hsnd
  exact ⟨_, heq, cost_eq_sum e h1 h2 h3 h4 _ heq⟩

theorem cost_error (e : Enhancement)
    (h : (e.level < 1 ∨ 9 < e.level) ∨
      (e.previousEnhancements < 0 ∨ 3 < e.previousEnhancements) ∨
      e.baseEnhancement ∉ definedBaseEnhancements ∨
      (e.baseEnhancement = EnhanceAddAttackHex ∧ e.multipleTarget = 0)) :
    ∃ msg, e.Cost = (0, some msg) := by
  by_cases hA : e.level < 1 ∨ e.level > 9
  · exact ⟨"level must be between 1 and 9, not " ++ toString e.level,
      by simp [Enhancement.Cost, hA]⟩
  by_cases hB : e.previousEnhancements < 0 ∨ e.previousEnhancements > 3
  · exact ⟨"previous enhancements must be between 0 and 3, not " ++
        toString e.previousEnhancements,
      by simp [Enhancement.Cost, hA, hB]⟩
  rcases h with h|h|h|h
  · exact absurd h hA
  · exact absurd h hB
  · have hc := costForBase_undefined e h
    exact ⟨"unknown base enhancement " ++ toString e.baseEnhancement,
      by simp [Enhancement.Cost, hA, hB, hc]⟩
  · have hc : e.costForBaseEnhancement = (0, some "e.multipleTarget is 0") := by
      rw [costForBase_hex e h.1, if_pos h.2]
    exact ⟨"e.multipleTarget is 0", by simp [Enhancement.Cost, hA, hB, hc]⟩

/-! ### Claim theorems -/

/-- C1: for every configuration whose level is in [1,9], whose
previous-enhancement count is in [0,3], whose base enhancement is one of the
defined constants and, when the type is AddAttackHex, whose multipleTarget is
nonzero, Cost succeeds and returns exactly the sum of the base cost, the
level surcharge and the previous-enhancement surcharge; in particular
Attack at level 3 with one previous enhancement and multiplier 1 costs
175. -/
theorem claim_C1 :
    (∀ e : Enhancement, 1 ≤ e.level → e.level ≤ 9 →
      0 ≤ e.previousEnhancements → e.previousEnhancements ≤ 3 →
      e.baseEnhancement ∈ definedBaseEnhancements →
      (e.baseEnhancement = EnhanceAddAttackHex → e.multipleTarget ≠ 0) →
      ∃ b lc pc, e.costForBaseEnhancement = (b, none) ∧
        costForLevel e.level = (lc, none) ∧
        costForPreviousEnhancements e.previousEnhancements = (pc, none) ∧
        e.Cost = (b + lc + pc, none)) ∧
    ((((NewEnhancement EnhanceAttack).WithLevel 3).WithPreviousEnhancements
      1).WithMultipleTarget 1).Cost = (175, none) := by
  constructor
  · intro e h1 h2 h3 h4 hb hm
    obtain ⟨b, hbeq, hcost⟩ := cost_ok e h1 h2 h3 h4 hb hm
    exact ⟨b, 25 * (e.level - 1), 75 * e.previousEnhancements, hbeq,
      costForLevel_valid _ h1 h2, costForPreviousEnhancements_valid _ h3 h4,
      hcost⟩
  · decide

/-- C1 witness: the universally quantified part of C1 instantiated at the
Attack, level 3, previous 1, multiplier 1 configuration. -/
theorem claim_C1_witness :
    ∃ b lc pc,
      ((((NewEnhancement EnhanceAttack).WithLevel 3).WithPreviousEnhancements
        1).WithMultipleTarget 1).costForBaseEnhancement = (b, none) ∧
      costForLevel ((((NewEnhancement EnhanceAttack).WithLevel
        3).WithPreviousEnhancements 1).WithMultipleTarget 1).level =
        (lc, none) ∧
      costForPreviousEnhancements ((((NewEnhancement
        EnhanceAttack).WithLevel 3).WithPreviousEnhancements
        1).WithMultipleTarget 1).previousEnhancements = (pc, none) ∧
      ((((NewEnhancement EnhanceAttack).WithLevel 3).WithPreviousEnhancements
        1).WithMultipleTarget 1).Cost = (b + lc + pc, none) :=
  claim_C1.1 _ (by decide) (by decide) (by decide) (by decide) (by decide)
    (by decide)

/-- C2: for AddAttackHex with a valid level and previous-enhancement count,
Cost uses truncating integer division 200 / multipleTarget as the base cost,
never doubled, so the base costs at multipleTarget 1, 2, 4, 5 are 200, 100,
50, 40; with multipleTarget 0 Cost fails with the division-by-zero error. -/
theorem claim_C2 :
    (∀ e : Enhancement, e.baseEnhancement = EnhanceAddAttackHex →
      1 ≤ e.level → e.level ≤ 9 →
      0 ≤ e.previousEnhancements → e.previousEnhancements ≤ 3 →
      (e.multipleTarget ≠ 0 →
        e.Cost = (Int.tdiv 200 e.multipleTarget + 25 * (e.level - 1) +
          75 * e.previousEnhancements, none)) ∧
      (e.multipleTarget = 0 →
        e.Cost = (0, some "e.multipleTarget is 0"))) ∧
    ((NewEnhancement EnhanceAddAttackHex).WithMultipleTarget 1).Cost =
      (200, none) ∧
    ((NewEnhancement EnhanceAddAttackHex).WithMultipleTarget 2).Cost =
      (100, none) ∧
    ((NewEnhancement EnhanceAddAttackHex).WithMultipleTarget 4).Cost =
      (50, none) ∧
    ((NewEnhancement EnhanceAddAttackHex).WithMultipleTarget 5).Cost =
      (40, none) := by
  refine ⟨?_, by decide, by decide, by decide, by decide⟩
  intro e hbe h1 h2 h3 h4
  constructor
  · intro hmt
    have hb : e.costForBaseEnhancement =
        (Int.tdiv 200 e.multipleTarget, none) := by
      rw [costForBase_hex e hbe, if_neg hmt]
    exact cost_eq_sum e h1 h2 h3 h4 _ hb
  · intro hmt
    have hb : e.costForBaseEnhancement = (0, some "e.multipleTarget is 0") := by
      rw [costForBase_hex e hbe, if_pos hmt]
    have hA : ¬ (e.level < 1 ∨ e.level > 9) := by omega
    have hB : ¬ (e.previousEnhancements < 0 ∨ e.previousEnhancements > 3) := by
      omega
    simp [Enhancement.Cost, hA, hB, hb]

/-- C2 witness: the universally quantified part of C2 instantiated at
multipleTarget 2 (level 1, previous 0). -/
theorem claim_C2_witness :
    ((NewEnhancement EnhanceAddAttackHex).WithMultipleTarget 2).Cost =
      (Int.tdiv 200 2 + 25 * (1 - 1) + 75 * 0, none) :=
  (claim_C2.1 _ (by decide) (by decide) (by decide) (by decide)
    (by decide)).1 (by decide)

/-- C3: for every defined base enhancement other than AddAttackHex and the
four Summons types, the base cost with multipleTarget > 1 is exactly twice
the base cost with multipleTarget = 1, and any multipleTarget ≤ 1 leaves the
base cost equal to its value at multipleTarget = 1; for the four Summons
types the computed cost is identical for every multipleTarget value. -/
theorem claim_C3 :
    (∀ e : Enhancement, e.baseEnhancement ∈ definedBaseEnhancements →
      e.baseEnhancement ≠ EnhanceAddAttackHex →
      e.baseEnhancement ≠ EnhanceSummonsMove →
      e.baseEnhancement ≠ EnhanceSummonsAttack →
      e.baseEnhancement ≠ EnhanceSummonsRange →
      e.baseEnhancement ≠ EnhanceSummonsHP →
      (∀ m : Int, 1 < m →
        ∃ c, (e.WithMultipleTarget 1).costForBaseEnhancement = (c, none) ∧
          (e.WithMultipleTarget m).costForBaseEnhancement = (c * 2, none)) ∧
      (∀ m : Int, m ≤ 1 →
        (e.WithMultipleTarget m).costForBaseEnhancement =
          (e.WithMultipleTarget 1).costForBaseEnhancement)) ∧
    (∀ e : Enhancement,
      (e.baseEnhancement = EnhanceSummonsMove ∨
       e.baseEnhancement = EnhanceSummonsAttack ∨
       e.baseEnhancement = EnhanceSummonsRange ∨
       e.baseEnhancement = EnhanceSummonsHP) →
      ∀ m m' : Int,
        (e.WithMultipleTarget m).costForBaseEnhancement =
          (e.WithMultipleTarget m').costForBaseEnhancement) := by
  constructor
  · intro e hb hx hsm hsa hsr hsh
    obtain ⟨c, hc, hcpos⟩ := baseLookup_defined _ hb hx hsm hsa hsr hsh
    have base : ∀ m : Int, (e.WithMultipleTarget m).costForBaseEnhancement =
        (if m > 1 then c * 2 else c, none) := fun m =>
      costForBase_lookup (e.WithMultipleTarget m) c hx hsm hsa hsr hsh hc
    constructor
    · intro m hm
      refine ⟨c, ?_, ?_⟩
      · rw [base 1]
        norm_num
      · rw [base m, if_pos hm]
    · intro m hm
      rw [base m, base 1]
      have hne : ¬ ((1 : Int) < m) := by omega
      simp [hne]
  · intro e hb m m'
    exact costForBase_summons_const e hb m m'

/-- C3 witness: C3 instantiated at Move (doubles from 30 at multiplier 2,
unchanged at multiplier 0) and at SummonsHP (same cost at multipliers 9
and 1). -/
theorem claim_C3_witness :
    (∃ c, ((NewEnhancement EnhanceMove).WithMultipleTarget
        1).costForBaseEnhancement = (c, none) ∧
      ((NewEnhancement EnhanceMove).WithMultipleTarget
        2).costForBaseEnhancement = (c * 2, none)) ∧
    ((NewEnhancement EnhanceMove).WithMultipleTarget
        0).costForBaseEnhancement =
      ((NewEnhancement EnhanceMove).WithMultipleTarget
        1).costForBaseEnhancement ∧
    ((NewEnhancement EnhanceSummonsHP).WithMultipleTarget
        9).costForBaseEnhancement =
      ((NewEnhancement EnhanceSummonsHP).WithMultipleTarget
        1).costForBaseEnhancement :=
  ⟨(claim_C3.1 (NewEnhancement EnhanceMove) (by decide) (by decide)
      (by decide) (by decide) (by decide) (by decide)).1 2 (by decide),
   (claim_C3.1 (NewEnhancement EnhanceMove) (by decide) (by decide)
      (by decide) (by decide) (by decide) (by decide)).2 0 (by decide),
   claim_C3.2 (NewEnhancement EnhanceSummonsHP) (by decide) 9 1⟩

/-- C4: Cost returns a non-nil error exactly when the level is outside
[1,9], the previous-enhancement count is outside [0,3], the base-enhancement
value matches none of the defined constants, or the type is AddAttackHex
with multipleTarget 0; whenever an error is returned the cost value is 0, so
an unrecognized enumeration value never silently yields a successful zero
cost. -/
theorem claim_C4 :
    ∀ e : Enhancement,
      ((e.Cost).2 ≠ none ↔
        (e.level < 1 ∨ 9 < e.level ∨
         e.previousEnhancements < 0 ∨ 3 < e.previousEnhancements ∨
         e.baseEnhancement ∉ definedBaseEnhancements ∨
         (e.baseEnhancement = EnhanceAddAttackHex ∧
           e.multipleTarget = 0))) ∧
      ((e.Cost).2 ≠ none → (e.Cost).1 = 0) := by
  intro e
  by_cases hP : e.level < 1 ∨ 9 < e.level ∨
      e.previousEnhancements < 0 ∨ 3 < e.previousEnhancements ∨
      e.baseEnhancement ∉ definedBaseEnhancements ∨
      (e.baseEnhancement = EnhanceAddAttackHex ∧ e.multipleTarget = 0)
  · obtain ⟨msg, hmsg⟩ := cost_error e (by tauto)
    refine ⟨⟨fun _ => hP, fun _ => ?_⟩, fun _ => ?_⟩
    · rw [hmsg]
      simp
    · rw [hmsg]
  · push_neg at hP
    obtain ⟨hl1, hl2, hp1, hp2, hbm, hhex⟩ := hP
    obtain ⟨b, hb, hcost⟩ := cost_ok e hl1 hl2 hp1 hp2 hbm hhex
    rw [hcost]
    refine ⟨⟨fun hcon => absurd rfl hcon, fun hp => ?_⟩,
      fun hcon => absurd rfl hcon⟩
    exact absurd hp (by push_neg; exact ⟨hl1, hl2, hp1, hp2, hbm, hhex⟩)

/-- C4 witness: the unrecognized enumeration value 99 makes Cost fail with
cost 0, while the defined Attack configuration does not fail. -/
theorem claim_C4_witness :
    (((NewEnhancement 99).Cost).2 ≠ none) ∧
    (((NewEnhancement 99).Cost).1 = 0) ∧
    ¬ (((NewEnhancement EnhanceAttack).Cost).2 ≠ none) :=
  ⟨(claim_C4 (NewEnhancement 99)).1.mpr (by decide),
   (claim_C4 (NewEnhancement 99)).2
     ((claim_C4 (NewEnhancement 99)).1.mpr (by decide)),
   fun h => absurd ((claim_C4 (NewEnhancement EnhanceAttack)).1.mp h)
     (by decide)⟩

/-- C5: with multipleTarget ≤ 1, costForBaseEnhancement returns 30 for Move,
Range, Push, Pull, Pierce, Heal; 50 for Attack, Target, Muddle, Strengthen,
Bless, Jump, SummonsRange, SummonsHP; 75 for Poison, Wound, Curse; 100 for
Shield, Retaliate, Immobilize, SpecificElement, SummonsMove, SummonsAttack;
and 150 for Disarm and AnyElement. -/
theorem claim_C5 :
    ∀ e : Enhancement, e.multipleTarget ≤ 1 →
      ((e.baseEnhancement = EnhanceMove ∨ e.baseEnhancement = EnhanceRange ∨
        e.baseEnhancement = EnhancePush ∨ e.baseEnhancement = EnhancePull ∨
        e.baseEnhancement = EnhancePierce ∨
        e.baseEnhancement = EnhanceHeal) →
        e.costForBaseEnhancement = (30, none)) ∧
      ((e.baseEnhancement = EnhanceAttack ∨
        e.baseEnhancement = EnhanceTarget ∨
        e.baseEnhancement = EnhanceMuddle ∨
        e.baseEnhancement = EnhanceStrengthen ∨
        e.baseEnhancement = EnhanceBless ∨ e.baseEnhancement = EnhanceJump ∨
        e.baseEnhancement = EnhanceSummonsRange ∨
        e.baseEnhancement = EnhanceSummonsHP) →
        e.costForBaseEnhancement = (50, none)) ∧
      ((e.baseEnhancement = EnhancePoison ∨
        e.baseEnhancement = EnhanceWound ∨
        e.baseEnhancement = EnhanceCurse) →
        e.costForBaseEnhancement = (75, none)) ∧
      ((e.baseEnhancement = EnhanceShield ∨
        e.baseEnhancement = EnhanceRetaliate ∨
        e.baseEnhancement = EnhanceImmobilize ∨
        e.baseEnhancement = EnhanceSpecificElement ∨
        e.baseEnhancement = EnhanceSummonsMove ∨
        e.baseEnhancement = EnhanceSummonsAttack) →
        e.costForBaseEnhancement = (100, none)) ∧
      ((e.baseEnhancement = EnhanceDisarm ∨
        e.baseEnhancement = EnhanceAnyElement) →
        e.costForBaseEnhancement = (150, none)) := by
  intro e hmt
  have hgt : ¬ (e.multipleTarget > 1) := by omega
  refine ⟨?_, ?_, ?_, ?_, ?_⟩ <;> intro h
  · rcases h with hb|hb|hb|hb|hb|hb <;>
      simp [Enhancement.costForBaseEnhancement, baseLookup, hb, hgt,
        EnhanceMove, EnhanceJump, EnhanceAttack, EnhanceRange, EnhanceTarget,
        EnhanceAddAttackHex, EnhanceHeal, EnhanceShield, EnhanceRetaliate,
        EnhanceStrengthen, EnhanceMuddle, EnhanceDisarm, EnhancePierce,
        EnhancePoison, EnhanceWound, EnhancePush, EnhancePull,
        EnhanceImmobilize, EnhanceCurse, EnhanceBless,
        EnhanceSpecificElement, EnhanceAnyElement, EnhanceSummonsMove,
        EnhanceSummonsAttack, EnhanceSummonsRange, EnhanceSummonsHP]
  · rcases h with hb|hb|hb|hb|hb|hb|hb|hb <;>
      simp [Enhancement.costForBaseEnhancement, baseLookup, hb, hgt,
        EnhanceMove, EnhanceJump, EnhanceAttack, EnhanceRange, EnhanceTarget,
        EnhanceAddAttackHex, EnhanceHeal, EnhanceShield, EnhanceRetaliate,
        EnhanceStrengthen, EnhanceMuddle, EnhanceDisarm, EnhancePierce,
        EnhancePoison, EnhanceWound, EnhancePush, EnhancePull,
        EnhanceImmobilize, EnhanceCurse, EnhanceBless,
        EnhanceSpecificElement, EnhanceAnyElement, EnhanceSummonsMove,
        EnhanceSummonsAttack, EnhanceSummonsRange, EnhanceSummonsHP]
  · rcases h with hb|hb|hb <;>
      simp [Enhancement.costForBaseEnhancement, baseLookup, hb, hgt,
        EnhanceMove, EnhanceJump, EnhanceAttack, EnhanceRange, EnhanceTarget,
        EnhanceAddAttackHex, EnhanceHeal, EnhanceShield, EnhanceRetaliate,
        EnhanceStrengthen, EnhanceMuddle, EnhanceDisarm, EnhancePierce,
        EnhancePoison, EnhanceWound, EnhancePush, EnhancePull,
        EnhanceImmobilize, EnhanceCurse, EnhanceBless,
        EnhanceSpecificElement, EnhanceAnyElement, EnhanceSummonsMove,
        EnhanceSummonsAttack, EnhanceSummonsRange, EnhanceSummonsHP]
  · rcases h with hb|hb|hb|hb|hb|hb <;>
      simp [Enhancement.costForBaseEnhancement, baseLookup, hb, hgt,
        EnhanceMove, EnhanceJump, EnhanceAttack, EnhanceRange, EnhanceTarget,
        EnhanceAddAttackHex, EnhanceHeal, EnhanceShield, EnhanceRetaliate,
        EnhanceStrengthen, EnhanceMuddle, EnhanceDisarm, EnhancePierce,
        EnhancePoison, EnhanceWound, EnhancePush, EnhancePull,
        EnhanceImmobilize, EnhanceCurse, EnhanceBless,
        EnhanceSpecificElement, EnhanceAnyElement, EnhanceSummonsMove,
        EnhanceSummonsAttack, EnhanceSummonsRange, EnhanceSummonsHP]
  · rcases h with hb|hb <;>
      simp [Enhancement.costForBaseEnhancement, baseLookup, hb, hgt,
        EnhanceMove, EnhanceJump, EnhanceAttack, EnhanceRange, EnhanceTarget,
        EnhanceAddAttackHex, EnhanceHeal, EnhanceShield, EnhanceRetaliate,
        EnhanceStrengthen, EnhanceMuddle, EnhanceDisarm, EnhancePierce,
        EnhancePoison, EnhanceWound, EnhancePush, EnhancePull,
        EnhanceImmobilize, EnhanceCurse, EnhanceBless,
        EnhanceSpecificElement, EnhanceAnyElement, EnhanceSummonsMove,
        EnhanceSummonsAttack, EnhanceSummonsRange, EnhanceSummonsHP]

/-- C5 witness: one representative from each cost group of C5, at the
default multiplier 1. -/
theorem claim_C5_witness :
    (NewEnhancement EnhanceMove).costForBaseEnhancement = (30, none) ∧
    (NewEnhancement EnhanceSummonsHP).costForBaseEnhancement = (50, none) ∧
    (NewEnhancement EnhanceCurse).costForBaseEnhancement = (75, none) ∧
    (NewEnhancement EnhanceSpecificElement).costForBaseEnhancement =
      (100, none) ∧
    (NewEnhancement EnhanceAnyElement).costForBaseEnhancement =
      (150, none) :=
  ⟨(claim_C5 (NewEnhancement EnhanceMove) (by decide)).1 (by decide),
   (claim_C5 (NewEnhancement EnhanceSummonsHP) (by decide)).2.1 (by decide),
   (claim_C5 (NewEnhancement EnhanceCurse) (by decide)).2.2.1 (by decide),
   (claim_C5 (NewEnhancement EnhanceSpecificElement)
     (by decide)).2.2.2.1 (by decide),
   (claim_C5 (NewEnhancement EnhanceAnyElement)
     (by decide)).2.2.2.2 (by decide)⟩

/-- C6: for every level in [1,9] the level surcharge is 25 * (level - 1),
hence 0, 25, ..., 200 increasing by exactly 25 per step; for any level
outside [1,9] both costForLevel and Cost fail with the out-of-range
error. -/
theorem claim_C6 :
    (∀ l : Int, 1 ≤ l → l ≤ 9 → costForLevel l = (25 * (l - 1), none)) ∧
    (∀ l : Int, 1 ≤ l → l ≤ 8 →
      (costForLevel (l + 1)).1 = (costForLevel l).1 + 25) ∧
    (∀ l : Int, l < 1 ∨ 9 < l →
      costForLevel l =
        (0, some ("level must be between 1 and 9, not " ++ toString l))) ∧
    (∀ e : Enhancement, e.level < 1 ∨ 9 < e.level →
      e.Cost = (0, some ("level must be between 1 and 9, not " ++
        toString e.level))) := by
  refine ⟨costForLevel_valid, ?_, costForLevel_invalid, ?_⟩
  · intro l h1 h2
    rw [costForLevel_valid l h1 (by omega),
      costForLevel_valid (l + 1) (by omega) (by omega)]
    dsimp only
    omega
  · intro e h
    simp [Enhancement.Cost, h]

/-- C6 witness: C6 instantiated at level 3, the step from 8 to 9, the
invalid level 10 and a configuration with level 0. -/
theorem claim_C6_witness :
    costForLevel 3 = (25 * (3 - 1), none) ∧
    (costForLevel (8 + 1)).1 = (costForLevel 8).1 + 25 ∧
    costForLevel 10 =
      (0, some ("level must be between 1 and 9, not " ++
        toString (10 : Int))) ∧
    ((NewEnhancement EnhanceMove).WithLevel 0).Cost =
      (0, some ("level must be between 1 and 9, not " ++
        toString ((NewEnhancement EnhanceMove).WithLevel 0).level)) :=
  ⟨claim_C6.1 3 (by decide) (by decide),
   claim_C6.2.1 8 (by decide) (by decide),
   claim_C6.2.2.1 10 (by decide),
   claim_C6.2.2.2 _ (by decide)⟩

/-- C7: for every previous-enhancement count in [0,3] the surcharge is
75 * count, hence 0, 75, 150, 225 increasing by exactly 75 per step; for
any count outside [0,3] costForPreviousEnhancements fails with the
out-of-range error and Cost fails. -/
theorem claim_C7 :
    (∀ p : Int, 0 ≤ p → p ≤ 3 →
      costForPreviousEnhancements p = (75 * p, none)) ∧
    (∀ p : Int, 0 ≤ p → p ≤ 2 →
      (costForPreviousEnhancements (p + 1)).1 =
        (costForPreviousEnhancements p).1 + 75) ∧
    (∀ p : Int, p < 0 ∨ 3 < p →
      costForPreviousEnhancements p =
        (0, some ("previous enhancements must be between 0 and 3, not " ++
          toString p))) ∧
    (∀ e : Enhancement, e.previousEnhancements < 0 ∨
        3 < e.previousEnhancements →
      ∃ msg, e.Cost = (0, some msg)) := by
  refine ⟨costForPreviousEnhancements_valid, ?_,
    costForPreviousEnhancements_invalid, ?_⟩
  · intro p h1 h2
    rw [costForPreviousEnhancements_valid p h1 (by omega),
      costForPreviousEnhancements_valid (p + 1) (by omega) (by omega)]
    dsimp only
    omega
  · intro e h
    exact cost_error e (Or.inr (Or.inl h))

/-- C7 witness: C7 instantiated at count 2, the step from 2 to 3, the
invalid count 4 and a configuration with count -1. -/
theorem claim_C7_witness :
    costForPreviousEnhancements 2 = (75 * 2, none) ∧
    (costForPreviousEnhancements (2 + 1)).1 =
      (costForPreviousEnhancements 2).1 + 75 ∧
    costForPreviousEnhancements 4 =
      (0, some ("previous enhancements must be between 0 and 3, not " ++
        toString (4 : Int))) ∧
    ∃ msg, ((NewEnhancement EnhanceMove).WithPreviousEnhancements
      (-1)).Cost = (0, some msg) :=
  ⟨claim_C7.1 2 (by decide) (by decide),
   claim_C7.2.1 2 (by decide) (by decide),
   claim_C7.2.2.1 4 (by decide),
   claim_C7.2.2.2 _ (by decide)⟩

/-- C8 counterexample: AddAttackHex with multipleTarget -1, level 1 and
previous count 0 is accepted by Cost with a nil error, yet the returned
cost is the negative value -200, refuting the claim that every accepted
configuration yields a non-negative cost. -/
theorem claim_C8_counterexample :
    ((NewEnhancement EnhanceAddAttackHex).WithMultipleTarget (-1)).Cost =
      (-200, none) ∧
    (((NewEnhancement EnhanceAddAttackHex).WithMultipleTarget
      (-1)).Cost).1 < 0 := by
  decide

/-- C8 (amended): for every defined enhancement type, every level in [1,9],
every previous count in [0,3] and every multipleTarget — restricted to
positive values when the type is AddAttackHex — Cost succeeds and the
returned cost is non-negative. -/
theorem claim_C8_amended :
    ∀ e : Enhancement, e.baseEnhancement ∈ definedBaseEnhancements →
      1 ≤ e.level → e.level ≤ 9 →
      0 ≤ e.previousEnhancements → e.previousEnhancements ≤ 3 →
      (e.baseEnhancement = EnhanceAddAttackHex → 0 < e.multipleTarget) →
      (e.Cost).2 = none ∧ 0 ≤ (e.Cost).1 := by
  intro e hb h1 h2 h3 h4 hm
  obtain ⟨hsnd, hfst⟩ := costForBase_nonneg e hb hm
  have heq := pair_eq_of_snd_none _ hsnd
  have hcost := cost_eq_sum e h1 h2 h3 h4 _ heq
  rw [hcost]
  refine ⟨rfl, ?_⟩
  dsimp only
  omega

/-- C8 witness: the amended C8 instantiated at Shield with the negative
multiplier -7, which is accepted and yields a non-negative cost. -/
theorem claim_C8_witness :
    (((NewEnhancement EnhanceShield).WithMultipleTarget (-7)).Cost).2 =
      none ∧
    0 ≤ (((NewEnhancement EnhanceShield).WithMultipleTarget (-7)).Cost).1 :=
  claim_C8_amended _ (by decide) (by decide) (by decide) (by decide)
    (by decide) (by decide)

/-- C9 counterexample: the source defines 26 Enhance* constants, not 25 as
the claim states. -/
theorem claim_C9_counterexample :
    definedBaseEnhancements.length = 26 ∧
    ¬ definedBaseEnhancements.length = 25 := by
  decide

/-- C9 (amended): the BaseEnhancement enumeration consists of exactly 26
distinct named variants, and every defined variant is matched by an entry
of the base-cost computation — with the default configuration none of them
reaches the unknown-type branch. -/
theorem claim_C9_amended :
    definedBaseEnhancements.length = 26 ∧ definedBaseEnhancements.Nodup ∧
    ∀ be ∈ definedBaseEnhancements,
      ((NewEnhancement be).costForBaseEnhancement).2 = none := by
  decide

/-- C9 witness: the amended C9 instantiated at AddAttackHex. -/
theorem claim_C9_witness :
    ((NewEnhancement EnhanceAddAttackHex).costForBaseEnhancement).2 =
      none :=
  claim_C9_amended.2.2 EnhanceAddAttackHex (by decide)

/-- C10: IncrementPrevious and DecrementPrevious wrap modulo 4 —
IncrementPrevious 3 = 0 and DecrementPrevious 0 = 3 — and for every count
in [0,3] they are mutual inverses and both return a value in [0,3]. -/
theorem claim_C10 :
    IncrementPrevious 3 = 0 ∧ DecrementPrevious 0 = 3 ∧
    (∀ p : Int, 0 ≤ p → p ≤ 3 →
      DecrementPrevious (IncrementPrevious p) = p ∧
      IncrementPrevious (DecrementPrevious p) = p ∧
      0 ≤ IncrementPrevious p ∧ IncrementPrevious p ≤ 3 ∧
      0 ≤ DecrementPrevious p ∧ DecrementPrevious p ≤ 3) := by
  refine ⟨by decide, by decide, ?_⟩
  intro p h1 h2
  interval_cases p <;> decide

/-- C10 witness: the quantified part of C10 instantiated at count 2. -/
theorem claim_C10_witness :
    DecrementPrevious (IncrementPrevious 2) = 2 ∧
    IncrementPrevious (DecrementPrevious 2) = 2 ∧
    0 ≤ IncrementPrevious 2 ∧ IncrementPrevious 2 ≤ 3 ∧
    0 ≤ DecrementPrevious 2 ∧ DecrementPrevious 2 ≤ 3 :=
  claim_C10.2.2 2 (by decide) (by decide)

end Ghec
